import Mathlib

/-!
# Verification of the VortexNav CM93 chart engine

A shallow embedding, in Lean 4, of the parts of the VortexNav source that the
spec's claims are about:

* the CM93 substitution cipher (`src-tauri/src/cm93/decode.rs`),
* the cell parser's edge and feature sections (`src-tauri/src/cm93/cell.rs`),
* geometry values and the GeoJSON conversion filters
  (`src-tauri/src/cm93/geometry.rs`, `src-tauri/src/cm93/server.rs`),
* the MBTiles tile row convention (`src-tauri/src/cm93/renderer.rs`,
  `src-tauri/src/database.rs`),
* the cell-cache bookkeeping of the reader (`src-tauri/src/cm93/reader.rs`),
* the BSB catalog text parser (`src-tauri/src/commands.rs`).

Machine integers are modelled as `Nat` (all the values involved are produced
by unsigned little-endian reads), `f64` coordinate values as `ℚ` (every
concrete value appearing in the claims is exact, and the comparisons the code
performs on them are order comparisons that `ℚ` mirrors), and fallible
operations as `Option`.
-/

set_option maxRecDepth 10000

/-! ## Cipher (`cm93/decode.rs`) -/

/-- `TABLE_0` from `cm93/decode.rs` lines 11–38: the fixed 256-byte array the
encode/decode tables are built from, in row order. -/
def TABLE_0 : List Nat :=
  [0xCD, 0xEA, 0xDC, 0x48, 0x3E, 0x6D, 0xCA, 0x7B, 0x52, 0xE1,
   0xA4, 0x8E, 0xAB, 0x05, 0xA7, 0x97, 0xB9, 0x60, 0x39, 0x85,
   0x7C, 0x56, 0x7A, 0xBA, 0x68, 0x6E, 0xF5, 0x5D, 0x02, 0x4E,
   0x0F, 0xA1, 0x27, 0x24, 0x41, 0x34, 0x00, 0x5A, 0xFE, 0xCB,
   0xD0, 0xFA, 0xF8, 0x6C, 0x74, 0x96, 0x9E, 0x0E, 0xC2, 0x49,
   0xE3, 0xE5, 0xC0, 0x3B, 0x59, 0x18, 0xA9, 0x86, 0x8F, 0x30,
   0xC3, 0xA8, 0x22, 0x0A, 0x14, 0x1A, 0xB2, 0xC9, 0xC7, 0xED,
   0xAA, 0x29, 0x94, 0x75, 0x0D, 0xAC, 0x0C, 0xF4, 0xBB, 0xC5,
   0x3F, 0xFD, 0xD9, 0x9C, 0x4F, 0xD5, 0x84, 0x1E, 0xB1, 0x81,
   0x69, 0xB4, 0x09, 0xB8, 0x3C, 0xAF, 0xA3, 0x08, 0xBF, 0xE0,
   0x9A, 0xD7, 0xF7, 0x8C, 0x67, 0x66, 0xAE, 0xD4, 0x4C, 0xA5,
   0xEC, 0xF9, 0xB6, 0x64, 0x78, 0x06, 0x5B, 0x9B, 0xF2, 0x99,
   0xCE, 0xDB, 0x53, 0x55, 0x65, 0x8D, 0x07, 0x33, 0x04, 0x37,
   0x92, 0x26, 0x23, 0xB5, 0x58, 0xDA, 0x2F, 0xB3, 0x40, 0x5E,
   0x7F, 0x4B, 0x62, 0x80, 0xE4, 0x6F, 0x73, 0x1D, 0xDF, 0x17,
   0xCC, 0x28, 0x25, 0x2D, 0xEE, 0x3A, 0x98, 0xE2, 0x01, 0x0B,
   0xDD, 0xBC, 0x90, 0xB0, 0xFC, 0x95, 0x76, 0x93, 0x46, 0x57,
   0x2C, 0x2B, 0x50, 0x11, 0x0B, 0xC1, 0xF0, 0xE7, 0xD6, 0x21,
   0x31, 0xDE, 0xFF, 0xD8, 0x12, 0xA6, 0x4D, 0x8A, 0x13, 0x43,
   0x45, 0x38, 0xD2, 0x87, 0xA0, 0xEF, 0x82, 0xF1, 0x47, 0x89,
   0x6A, 0xC8, 0x54, 0x1B, 0x16, 0x7E, 0x79, 0xBD, 0x6B, 0x91,
   0xA2, 0x71, 0x36, 0xB7, 0x03, 0x3D, 0x72, 0xC6, 0x44, 0x8B,
   0xCF, 0x15, 0x9F, 0x32, 0xC4, 0x77, 0x83, 0x63, 0x20, 0x88,
   0xF6, 0xAD, 0xF3, 0xE8, 0x4A, 0xE9, 0x35, 0x1C, 0x5F, 0x19,
   0x1F, 0x7D, 0x70, 0xFB, 0xD1, 0x51, 0x10, 0xD3, 0x2E, 0x61,
   0x9D, 0x5C, 0x2A, 0x42, 0xBE, 0xE6]

/-- `init_tables` in `cm93/decode.rs` (lines 54–65), first component: the
encode table, `encode_table[i] = TABLE_0[i] ^ 8`. -/
def encode_table : List Nat :=
  (List.range 256).map (fun i => TABLE_0.getD i 0 ^^^ 8)

/-- `init_tables` in `cm93/decode.rs` (lines 54–65), second component: the
decode table, built by the loop `decode_table[encode_table[i]] = i` for
`i = 0..256` over an initially all-zero array (last write wins). -/
def decode_table : List Nat :=
  (List.range 256).foldl
    (fun acc i => acc.set (TABLE_0.getD i 0 ^^^ 8) i)
    (List.replicate 256 0)

/-- `decode_byte` in `cm93/decode.rs`: table lookup in the decode table. -/
def decode_byte (b : Nat) : Nat := decode_table.getD b 0

/-- `encode_byte` in `cm93/decode.rs`: table lookup in the encode table. -/
def encode_byte (b : Nat) : Nat := encode_table.getD b 0

/-! ## Geometry data model (`cm93/geometry.rs`) -/

/-- `Cm93Point` (`cm93/geometry.rs`): a cell-local point. The `i32` fields are
modelled as `Int`; the parser only ever stores values of `u16` reads in them. -/
structure Cm93Point where
  x : Int
  y : Int
deriving DecidableEq, Repr

/-- `GeoPoint` (`cm93/geometry.rs`): geographic coordinates; `f64` is modelled
as `ℚ`. -/
structure GeoPoint where
  lat : ℚ
  lon : ℚ
deriving DecidableEq, Repr

/-- `Cm93Geometry` (`cm93/geometry.rs` lines 135–143). -/
structure Cm93Geometry where
  geom_type : Nat
  points : List GeoPoint
  ring_starts : List Nat
deriving DecidableEq, Repr

namespace Cm93Geometry

/-- `Cm93Geometry::point`: one vertex at the given coordinates. -/
def point (lat lon : ℚ) : Cm93Geometry :=
  { geom_type := 1, points := [⟨lat, lon⟩], ring_starts := [] }

/-- `Cm93Geometry::line`. -/
def line (points : List GeoPoint) : Cm93Geometry :=
  { geom_type := 2, points := points, ring_starts := [] }

/-- `Cm93Geometry::area`. -/
def area (points : List GeoPoint) (ring_starts : List Nat) : Cm93Geometry :=
  { geom_type := 4, points := points,
    ring_starts := if ring_starts = [] then [0] else ring_starts }

/-- `Cm93Geometry::is_valid` (`cm93/geometry.rs` lines 199–206). -/
def is_valid (g : Cm93Geometry) : Bool :=
  match g.geom_type with
  | 1 => !g.points.isEmpty
  | 2 => decide (2 ≤ g.points.length)
  | 4 => decide (3 ≤ g.points.length)
  | _ => false

end Cm93Geometry

/-- `GeometryType` (`cm93/mod.rs`). -/
inductive GeometryType
  | Point
  | Line
  | Area
deriving DecidableEq, Repr

/-- `AttributeValue` (`cm93/cell.rs` lines 62–68). -/
inductive AttributeValue
  | Integer (i : Int)
  | Float (f : ℚ)
  | Str (s : List Char)
  | IntList (l : List Int)
deriving DecidableEq, Repr

/-- `AttributeValue::as_f64` (`cm93/cell.rs` lines 84–90). -/
def AttributeValue.as_f64 : AttributeValue → Option ℚ
  | .Integer i => some (i : ℚ)
  | .Float f => some f
  | _ => none

/-- `AttributeValue::as_string` (`cm93/cell.rs` lines 71–82); numeric values
are rendered in decimal, lists comma-joined.  Only emptiness of the result is
ever inspected downstream. -/
def AttributeValue.as_string : AttributeValue → List Char
  | .Integer i => (toString i).data
  | .Float f => (toString f).data
  | .Str s => s
  | .IntList l => (String.intercalate "," (l.map toString)).data

/-- `Cm93Feature` (`cm93/cell.rs` lines 47–59); the attribute `HashMap` is
modelled as an association list (the parser always leaves it empty). -/
structure Cm93Feature where
  object_class : Nat
  feature_id : Nat
  geometry_type : GeometryType
  geometry : Cm93Geometry
  attributes : List (Nat × AttributeValue)
deriving DecidableEq, Repr

/-- `CellHeader` (`cm93/cell.rs` lines 17–44), restricted to the fields that
`parse_features` reads: `signature`, `edge_count` and `feature_count`.  The
eight `f64` bounds, the rates and the remaining counts are not consumed by any
claim and are omitted. -/
structure CellHeader where
  signature : Nat
  edge_count : Nat
  feature_count : Nat
deriving DecidableEq, Repr

/-! ## Binary reads (`cm93/geometry.rs` lines 272–296) -/

/-- `read_u16`: little-endian `u16` at `offset`; `none` exactly when fewer
than two bytes remain.  Returns the value and the advanced offset. -/
def read_u16 (data : List Nat) (offset : Nat) : Option (Nat × Nat) :=
  if offset + 2 > data.length then none
  else some (data.getD offset 0 + 256 * data.getD (offset + 1) 0, offset + 2)

/-- `read_u32`: little-endian `u32` at `offset`. -/
def read_u32 (data : List Nat) (offset : Nat) : Option (Nat × Nat) :=
  if offset + 4 > data.length then none
  else some (data.getD offset 0 + 256 * data.getD (offset + 1) 0
      + 65536 * data.getD (offset + 2) 0 + 16777216 * data.getD (offset + 3) 0,
    offset + 4)

/-- `read_u16(..).unwrap_or(0)` as used throughout `parse_features`: value `0`
and an unadvanced offset when the read fails. -/
def readU16D (data : List Nat) (offset : Nat) : Nat × Nat :=
  match read_u16 data offset with
  | some vo => vo
  | none => (0, offset)

/-- `read_u32(..).unwrap_or(0)`, analogously. -/
def readU32D (data : List Nat) (offset : Nat) : Nat × Nat :=
  match read_u32 data offset with
  | some vo => vo
  | none => (0, offset)

/-! ## Edge section of `Cm93Cell::parse_features` (`cm93/cell.rs` lines 338–363) -/

/-- The inner point loop of one edge (`cm93/cell.rs` lines 355–361): reads up
to `n` `(u16 x, u16 y)` pairs, stopping early at the end of the buffer or at
the start of the feature section.  Returns the final offset and the points. -/
def parseEdgePoints (data : List Nat) (featStart : Nat) :
    Nat → Nat → Nat × List Cm93Point
  | 0, offset => (offset, [])
  | n + 1, offset =>
    if offset + 4 > data.length ∨ featStart ≤ offset then (offset, [])
    else
      let xo := readU16D data offset
      let yo := readU16D data xo.2
      let rest := parseEdgePoints data featStart n yo.2
      (rest.1, ⟨(xo.1 : Int), (yo.1 : Int)⟩ :: rest.2)

/-- The edge loop (`cm93/cell.rs` lines 342–363): reads up to `edge_count`
edges, each a `u16` point count followed by that many points; breaks when a
read would leave the buffer or cross into the feature section.  A truncated
edge is still pushed with the points read so far. -/
def parseEdges (data : List Nat) (featStart : Nat) :
    Nat → Nat → Nat × List (List Cm93Point)
  | 0, offset => (offset, [])
  | n + 1, offset =>
    if offset + 2 > data.length ∨ featStart ≤ offset then (offset, [])
    else
      let np := readU16D data offset
      let pts := parseEdgePoints data featStart np.1 np.2
      let rest := parseEdges data featStart n pts.1
      (rest.1, pts.2 :: rest.2)

/-! ## Feature section of `Cm93Cell::parse_features` (`cm93/cell.rs` lines 410–633) -/

/-- The size correction of `cm93/cell.rs` lines 474–483: subtract the 4 bytes
of virtual overhead when the low nibble of `geom_prim` selects line (2) or
area (4) geometry or bit 7 (attributes) is set — but only when
`obj_desc_bytes >= 4`. -/
def actualDataBytes (geom_prim obj_desc_bytes : Nat) : Nat :=
  let geom_type_raw := geom_prim &&& 0x0F
  if (geom_type_raw = 2 ∨ geom_type_raw = 4 ∨ geom_prim &&& 0x80 ≠ 0)
      ∧ 4 ≤ obj_desc_bytes then
    obj_desc_bytes - 4
  else
    obj_desc_bytes

/-- The append step of `cm93/cell.rs` lines 542–547: extend the accumulated
geometry with the (already transformed, already oriented) edge points,
skipping the edge's first vertex when both lists are non-empty. -/
def appendEdge (acc pts : List GeoPoint) : List GeoPoint :=
  if acc ≠ [] ∧ pts ≠ [] then acc ++ pts.tail else acc ++ pts

/-- The edge-reference loop of a line/area feature (`cm93/cell.rs` lines
518–551): reads up to `n` `u16` references (bits 0–12 the edge index, bit 13
the reverse flag), stopping when a read would cross `fde` (the feature's data
end); out-of-range edge indices are skipped.  `tr` is the cell transform
`CellTransform::to_geo`; `to_geo_batch` is its map over an edge. -/
def parseRefs (data : List Nat) (edges : List (List Cm93Point))
    (tr : Cm93Point → GeoPoint) (fde : Nat) :
    Nat → Nat → List GeoPoint → Nat × List GeoPoint
  | 0, offset, acc => (offset, acc)
  | n + 1, offset, acc =>
    if fde < offset + 2 then (offset, acc)
    else
      let ro := readU16D data offset
      let actual_index := ro.1 &&& 0x1FFF
      let reverse := ro.1 &&& 0x2000 ≠ 0
      let acc' :=
        match edges[actual_index]? with
        | some edge_points =>
          let geo_points := edge_points.map tr
          let geo_points := if reverse then geo_points.reverse else geo_points
          appendEdge acc geo_points
        | none => acc
      parseRefs data edges tr fde n ro.2 acc'

/-- The reference stream decoded by `parseRefs`, by itself: the list of
`(edge index, reverse flag)` pairs the loop consumes. -/
def readRefs (data : List Nat) (fde : Nat) : Nat → Nat → List (Nat × Bool)
  | 0, _ => []
  | n + 1, offset =>
    if fde < offset + 2 then []
    else
      let ro := readU16D data offset
      (ro.1 &&& 0x1FFF, decide (ro.1 &&& 0x2000 ≠ 0)) :: readRefs data fde n ro.2

/-- The transformed, oriented vertex list of one edge reference. -/
def orientedEdge (edges : List (List Cm93Point)) (tr : Cm93Point → GeoPoint)
    (r : Nat × Bool) : List GeoPoint :=
  let g := (edges.getD r.1 []).map tr
  if r.2 then g.reverse else g

/-- One step of geometry assembly at the level of decoded references. -/
def assembleStep (edges : List (List Cm93Point)) (tr : Cm93Point → GeoPoint)
    (acc : List GeoPoint) (r : Nat × Bool) : List GeoPoint :=
  if r.1 < edges.length then appendEdge acc (orientedEdge edges tr r) else acc

/-- The geometry construction of `cm93/cell.rs` lines 591–601: a point feature
with no geometry points becomes the placeholder `point(0.0, 0.0)`. -/
def mkFeatureGeometry : GeometryType → List GeoPoint → Cm93Geometry
  | .Point, [] => Cm93Geometry.point 0 0
  | .Point, p :: _ => Cm93Geometry.point p.lat p.lon
  | .Line, pts => Cm93Geometry.line pts
  | .Area, pts => Cm93Geometry.area pts [0]

/-- The feature loop of `cm93/cell.rs` lines 433–610, with `n` the remaining
iteration budget (`header.feature_count` at the top call), `offset` the read
cursor and `featIdx` the running feature id.  The two direct byte accesses
`data[offset]` / `data[offset + 1]` are modelled with `List.getElem?`; an
out-of-bounds access — a Rust panic — would surface as `none`. -/
def parseFeatureLoop (data : List Nat) (edges : List (List Cm93Point))
    (tr : Cm93Point → GeoPoint) (featEnd : Nat) :
    Nat → Nat → Nat → Option (List Cm93Feature)
  | 0, _, _ => some []
  | n + 1, offset, featIdx =>
    if offset + 4 > data.length ∨ featEnd ≤ offset then some []
    else
      match data[offset]?, data[offset + 1]? with
      | some object_type, some geom_prim =>
        let odo := readU16D data (offset + 2)
        let adb := actualDataBytes geom_prim odo.1
        let feature_data_end := odo.2 + adb
        if featEnd < feature_data_end then some []
        else
          let gcode := geom_prim &&& 0x0F
          if gcode = 1 ∨ gcode = 2 ∨ gcode = 4 ∨ gcode = 8 then
            let geometry_type : GeometryType :=
              if gcode = 2 then .Line else if gcode = 4 then .Area else .Point
            let geometry_points : List GeoPoint :=
              if gcode = 2 ∨ gcode = 4 then
                -- lines 514–551: `u16 n_elements` then the edge references
                if feature_data_end < odo.2 + 2 then []
                else
                  let ne := readU16D data odo.2
                  (parseRefs data edges tr feature_data_end ne.1 ne.2 []).2
              else
                -- lines 554–575: kinds 1 and 8 index `point2d_array` /
                -- `point3d_array`; both arrays are left empty by the parser
                -- (lines 402–408), so the guarded pushes never fire, and the
                -- index read is dead (the cursor is reset at line 581).
                []
            let feat : Cm93Feature :=
              { object_class := object_type
                feature_id := featIdx
                geometry_type := geometry_type
                geometry := mkFeatureGeometry geometry_type geometry_points
                attributes := [] }
            (parseFeatureLoop data edges tr featEnd n feature_data_end
              (featIdx + 1)).map (feat :: ·)
          else
            -- line 504: unknown geometry kind, skip to the feature's data end
            parseFeatureLoop data edges tr featEnd n feature_data_end (featIdx + 1)
      | _, _ => none

/-- `Cm93Cell::parse_features` (`cm93/cell.rs` lines 283–633): re-reads the
prolog for the section lengths, parses the edge section from offset 138, then
the feature section.  The transform `tr` stands for the cell's
`CellTransform::to_geo` (built from its `f64` header fields). -/
def parse_features (data : List Nat) (header : CellHeader)
    (tr : Cm93Point → GeoPoint) : Option (List Cm93Feature) :=
  -- lines 302–305: `word0` (falls back to 138), then the two table lengths
  let w0 := match read_u16 data 0 with
    | some vo => vo
    | none => (138, 0)
  let vt := readU32D data w0.2
  let ft := readU32D data vt.2
  let feature_section_start := 138 + vt.1
  let er := parseEdges data feature_section_start header.edge_count 138
  parseFeatureLoop data er.2 tr (feature_section_start + ft.1)
    header.feature_count feature_section_start 0

/-! ## GeoJSON conversion and filters (`cm93/server.rs`) -/

/-- `is_cell_boundary_connector` (`cm93/server.rs` lines 291–333).  The spans
are Rust folds seeded with the infinities; for the non-empty lists reaching
them they equal folds seeded with the first element, which is how they are
written here. -/
def is_cell_boundary_connector (points : List GeoPoint) : Bool :=
  if points.length < 2 then false
  else
    match points with
    | [] => false
    | p0 :: _ =>
      let tol : ℚ := 1 / 10000000
      let all_same_lon := points.all fun p => decide (|p.lon - p0.lon| < tol)
      let all_same_lat := points.all fun p => decide (|p.lat - p0.lat| < tol)
      if decide (points.length = 2) && (all_same_lon || all_same_lat) then true
      else if all_same_lon &&
          decide ((points.map (·.lat)).foldl max p0.lat
            - (points.map (·.lat)).foldl min p0.lat < (1 : ℚ) / 10) then true
      else if all_same_lat &&
          decide ((points.map (·.lon)).foldl max p0.lon
            - (points.map (·.lon)).foldl min p0.lon < (1 : ℚ) / 10) then true
      else false

/-- `is_metadata_object` (`cm93/server.rs` lines 336–341). -/
def is_metadata_object (object_class : Nat) : Bool :=
  decide (200 ≤ object_class)

/-- `is_degenerate_area` (`cm93/server.rs` lines 344–378). -/
def is_degenerate_area (points : List GeoPoint) : Bool :=
  if points.length < 3 then true
  else
    match points with
    | [] => true
    | p0 :: _ =>
      let lon_span := (points.map (·.lon)).foldl max p0.lon
        - (points.map (·.lon)).foldl min p0.lon
      let lat_span := (points.map (·.lat)).foldl max p0.lat
        - (points.map (·.lat)).foldl min p0.lat
      let sliver :=
        if 0 < lon_span ∧ 0 < lat_span then
          let aspect_ratio :=
            if lat_span < lon_span then lon_span / lat_span else lat_span / lon_span
          decide (50 < aspect_ratio) &&
            (decide (lon_span < 1 / 100) || decide (lat_span < 1 / 100))
        else false
      if sliver then true
      else if lon_span < 1 / 100000000 ∨ lat_span < 1 / 100000000 then true
      else false

/-- `classify_layer` (`cm93/server.rs` lines 495–544), with the object codes
of `cm93/dictionary.rs` inlined as numerals (acronyms in comments). -/
def classify_layer (object_class : Nat) : List Char :=
  (match object_class with
  | 86 => "lights"                                    -- LIGHTS
  | 5 | 7 | 6 | 8 | 9 => "beacons"                    -- BCNCAR BCNLAT BCNISD BCNSAW BCNSPP
  | 15 | 18 | 17 | 19 | 20 | 16 => "buoys"            -- BOYCAR BOYLAT BOYISD BOYSAW BOYSPP BOYINB
  | 147 => "soundings"                                -- SOUNDG
  | 45 => "depth_contours"                            -- DEPCNT
  | 44 => "depth_areas"                               -- DEPARE
  | 81 | 83 => "land"                                 -- LNDARE LNDRGN
  | 35 | 177 => "coastline"                           -- COALNE ZEMCNT
  | 139 => "shoreline"                                -- SLCONS
  | 136 => "sea_area"                                 -- SEAARE
  | 129 => "rivers"                                   -- RIVERS
  | 78 => "intertidal"                                -- ITDARE
  | 138 | 169 => "seabed"                             -- SBDARE VEGARE
  | 99 => "obstructions"                              -- OBSTRN
  | 176 => "wrecks"                                   -- WRECKS
  | 168 => "rocks"                                    -- UWTROC
  | 29 => "caution_area"                              -- CTNARE
  | 11 => "bridges"                                   -- BRIDGE
  | 104 => "pilot_boarding"                           -- PILBOP
  | 14 | 13 => "buildings"                            -- BUAARE BUISGL
  | 4 | 3 | 2 => "anchorage"                          -- ACHARE ACHBRT ACHPNT
  | 57 => "fairway"                                   -- FAIRWY
  | 50 => "dredged_area"                              -- DRGARE
  | 128 => "restricted_area"                          -- RESARE
  | 162 | 164 => "traffic_separation"                 -- TSSLPT TSEZNE
  | 22 | 21 | 107 => "cables"                         -- CBLSUB CBLOHD PIPSOL
  | _ => "other").data

/-- A lookup in the feature's attribute map (`HashMap::get` on the
association-list model). -/
def attrLookup (attrs : List (Nat × AttributeValue)) (code : Nat) :
    Option AttributeValue :=
  (attrs.find? fun a => decide (a.1 = code)).map (·.2)

/-- `extract_depth` (`cm93/server.rs` lines 547–561): VALSOU (172), then
VALDCO (170), then DRVAL1 (87); the first attribute present decides, even when
its `as_f64` is `None`. -/
def extract_depth (feature : Cm93Feature) : Option ℚ :=
  match attrLookup feature.attributes 172 with
  | some v => v.as_f64
  | none =>
    match attrLookup feature.attributes 170 with
    | some v => v.as_f64
    | none =>
      match attrLookup feature.attributes 87 with
      | some v => v.as_f64
      | none => none

/-- `extract_name` (`cm93/server.rs` lines 564–572): OBJNAM (116), non-empty. -/
def extract_name (feature : Cm93Feature) : Option (List Char) :=
  match attrLookup feature.attributes 116 with
  | some v => if v.as_string = [] then none else some v.as_string
  | none => none

/-- `extract_color` (`cm93/server.rs` lines 575–583): COLOUR (75), non-empty. -/
def extract_color (feature : Cm93Feature) : Option (List Char) :=
  match attrLookup feature.attributes 75 with
  | some v => if v.as_string = [] then none else some v.as_string
  | none => none

/-- The loaded `Cm93Dictionary` (`cm93/dictionary.rs`), abstracted to the two
lookups `feature_to_geojson` performs; its contents come from disk files. -/
structure Cm93Dictionary where
  get_object : Nat → Option (List Char × List Char)
  get_attribute : Nat → Option (List Char)

/-- GeoJSON coordinates as emitted by `feature_to_geojson` (`serde_json`
values in the source). -/
inductive GjCoordinates
  | point (lonlat : ℚ × ℚ)
  | lineString (coords : List (ℚ × ℚ))
  | polygon (rings : List (List (ℚ × ℚ)))
deriving DecidableEq, Repr

/-- `GeoJsonGeometry` (`cm93/server.rs` lines 208–213). -/
structure GeoJsonGeometry where
  geom_type : List Char
  coordinates : GjCoordinates
deriving DecidableEq, Repr

/-- `GeoJsonProperties` (`cm93/server.rs` lines 216–244). -/
structure GeoJsonProperties where
  obj_class : Nat
  obj_acronym : List Char
  obj_name : List Char
  geom_type : List Char
  layer : List Char
  depth : Option ℚ
  name : Option (List Char)
  color : Option (List Char)
  attributes : List (List Char × List Char)
deriving DecidableEq, Repr

/-- `GeoJsonFeature` (`cm93/server.rs` lines 199–205). -/
structure GeoJsonFeature where
  feature_type : List Char
  geometry : GeoJsonGeometry
  properties : GeoJsonProperties
deriving DecidableEq, Repr

/-- `feature_to_geojson` (`cm93/server.rs` lines 381–492): the filter chain
(invalid geometry, metadata object class, cell-boundary connector line,
degenerate area), then the geometry emission (which may still reject
too-short vertex lists), then the property construction. -/
def feature_to_geojson (feature : Cm93Feature)
    (dictionary : Option Cm93Dictionary) : Option GeoJsonFeature :=
  let geom := feature.geometry
  if !geom.is_valid then none
  else if is_metadata_object feature.object_class then none
  else if feature.geometry_type = GeometryType.Line
      && is_cell_boundary_connector geom.points then none
  else if feature.geometry_type = GeometryType.Area
      && is_degenerate_area geom.points then none
  else
    let gc : Option (List Char × GjCoordinates) :=
      match feature.geometry_type with
      | .Point =>
        match geom.points with
        | [] => none
        | p :: _ => some ("Point".data, .point (p.lon, p.lat))
      | .Line =>
        let coords := geom.points.map fun p => (p.lon, p.lat)
        if coords.length < 2 then none
        else some ("LineString".data, .lineString coords)
      | .Area =>
        let coords := geom.points.map fun p => (p.lon, p.lat)
        if coords.length < 3 then none
        else some ("Polygon".data, .polygon [coords])
    match gc with
    | none => none
    | some gt =>
      let fallback : List Char × List Char :=
        (("OBJ_" ++ toString feature.object_class).data,
         ("Object " ++ toString feature.object_class).data)
      let an : List Char × List Char :=
        match dictionary with
        | some dict =>
          match dict.get_object feature.object_class with
          | some a => a
          | none => fallback
        | none => fallback
      some
        { feature_type := "Feature".data
          geometry := { geom_type := gt.1, coordinates := gt.2 }
          properties :=
            { obj_class := feature.object_class
              obj_acronym := an.1
              obj_name := an.2
              geom_type := (match feature.geometry_type with
                | .Point => "Point"
                | .Line => "Line"
                | .Area => "Polygon").data
              layer := classify_layer feature.object_class
              depth := extract_depth feature
              name := extract_name feature
              color := extract_color feature
              attributes := feature.attributes.map fun cv =>
                ((match dictionary with
                  | some dict =>
                    (dict.get_attribute cv.1).getD ("attr_" ++ toString cv.1).data
                  | none => ("attr_" ++ toString cv.1).data), cv.2.as_string) } }

/-! ## MBTiles tile storage (`cm93/renderer.rs`, `database.rs`) -/

/-- The MBTiles `tiles` table.  Its unique index on
`(zoom_level, tile_column, tile_row)` together with `INSERT OR REPLACE` makes
it a map from that key to the `tile_data` blob; modelled as a function. -/
def TilesTable := Nat × Nat × Nat → Option (List Nat)

/-- `MBTilesWriter::insert_tile` (`cm93/renderer.rs` lines 63–75):
`INSERT OR REPLACE` at TMS row `(1 << z) - 1 - y`.  Modelled for `z < 32` and
`y ≤ 2^z - 1` (outside that range the `u32` shift or subtraction panics). -/
def insert_tile (t : TilesTable) (z x y : Nat) (data : List Nat) : TilesTable :=
  fun k => if k = (z, x, (1 <<< z) - 1 - y) then some data else t k

/-- `MBTilesReader::get_tile` (`database.rs` lines 2111–2122): queries TMS row
`(1 << z) - 1 - y`; the `TileNotFound` error is modelled as `none`. -/
def get_tile (t : TilesTable) (z x y : Nat) : Option (List Nat) :=
  t (z, x, (1 <<< z) - 1 - y)

/-! ## Reader cell cache (`cm93/reader.rs`) -/

/-- A cell-cache key `(scale, cell_index)`; the scale enum is modelled by a
`Nat` tag. -/
abbrev CacheKey := Nat × Nat

/-- The cache bookkeeping state of `Cm93Reader`: the key list of the
`cell_cache` `HashMap` (in iteration order) and `max_cache_size`. -/
structure ReaderCacheState where
  cache : List CacheKey
  max_cache_size : Nat
deriving DecidableEq, Repr

/-- The state `Cm93Reader::open` produces (`cm93/reader.rs` lines 29–38):
empty cache, `max_cache_size = 500`. -/
def initReaderState : ReaderCacheState :=
  { cache := [], max_cache_size := 500 }

/-- `Cm93Reader::get_cell` (`cm93/reader.rs` lines 70–103), abstracted to its
cache bookkeeping.  On a miss it first evicts the first key when
`len >= max_cache_size` (a no-op on an empty cache, as in the source), then
path lookup and `Cm93Cell::parse` run — `load_ok` says whether they succeed —
and only on success is the key inserted. -/
def getCellStep (s : ReaderCacheState) (k : CacheKey) (load_ok : Bool) :
    ReaderCacheState :=
  if k ∈ s.cache then s
  else
    let c1 := if s.max_cache_size ≤ s.cache.length then s.cache.tail else s.cache
    if load_ok then { s with cache := c1 ++ [k] } else { s with cache := c1 }

/-- `Cm93Reader::set_cache_size` (`cm93/reader.rs` lines 245–252): store the
new size, then evict first keys while the cache is larger. -/
def setCacheSizeStep (s : ReaderCacheState) (n : Nat) : ReaderCacheState :=
  { cache := s.cache.drop (s.cache.length - n), max_cache_size := n }

/-- A cache-affecting reader operation. -/
inductive ReaderOp
  | get (k : CacheKey) (load_ok : Bool)
  | setSize (n : Nat)
deriving DecidableEq, Repr

/-- Run a sequence of reader operations. -/
def runReaderOps (s : ReaderCacheState) (ops : List ReaderOp) : ReaderCacheState :=
  ops.foldl
    (fun s op =>
      match op with
      | .get k load_ok => getCellStep s k load_ok
      | .setSize n => setCacheSizeStep s n)
    s

/-- A `set_cache_size` argument constraint: every resize in an operation
sequence asks for at least one slot. -/
def ReaderOp.sizeOk : ReaderOp → Prop
  | .setSize n => 1 ≤ n
  | .get _ _ => True

instance : DecidablePred ReaderOp.sizeOk
  | .setSize n => inferInstanceAs (Decidable (1 ≤ n))
  | .get _ _ => .isTrue trivial

/-! ## BSB catalog parser (`commands.rs`) -/

/-- ASCII whitespace, the subset of Rust's `char::is_whitespace` relevant to
catalog text. -/
def isWsChar (c : Char) : Bool :=
  c = ' ' || c = '\t' || c = '\n' || c = '\r'

/-- Rust `str::trim` on a character list. -/
def trimChars (l : List Char) : List Char :=
  ((l.dropWhile isWsChar).reverse.dropWhile isWsChar).reverse

/-- Rust `str::find(pat)`: index of the first occurrence of `pat` in `l`
(character index; the catalog text is ASCII, where this coincides with
Rust's byte index). -/
def findSub : List Char → List Char → Option Nat
  | l, pat =>
    if pat.isPrefixOf l then some 0
    else
      match l with
      | [] => none
      | _ :: t => (findSub t pat).map (· + 1)

/-- Rust `str::trim_end_matches(pat)`: repeatedly strip the suffix `pat`.
The fuel `n` is the string length at the top call, which bounds the number of
removals for non-empty `pat`. -/
def trimEndMatchesFuel (pat : List Char) : Nat → List Char → List Char
  | 0, s => s
  | n + 1, s =>
    if pat ≠ [] ∧ pat.isSuffixOf s then
      trimEndMatchesFuel pat n (s.take (s.length - pat.length))
    else s

/-- Rust `str::trim_end_matches(pat)`. -/
def trimEndMatches (s pat : List Char) : List Char :=
  trimEndMatchesFuel pat s.length s

/-- `extract_field` (`commands.rs` lines 1620–1633): locate `field`, take the
rest up to the next comma, trim it; empty values are `None`. -/
def extract_field (line field : List Char) : Option (List Char) :=
  match findSub line field with
  | none => none
  | some start =>
    let rest := line.drop (start + field.length)
    let value := trimChars (rest.takeWhile fun c => c ≠ ',')
    if value = [] then none else some value

/-- `BsbChartMetadata` (`commands.rs` lines 1636–1643). -/
structure BsbChartMetadata where
  chart_id : List Char
  title : List Char
  chart_type : Option (List Char)
  edition_date : Option (List Char)
  source_edition : Option (List Char)
deriving DecidableEq, Repr

/-- The continuation-line step of `parse_bsb_full` (`commands.rs` lines
1662–1672): a line starting with a space or tab is appended, after a comma, to
the last joined line (and dropped when there is none); any other line starts a
new joined line. -/
def joinContinuationStep (joined : List (List Char)) (line : List Char) :
    List (List Char) :=
  if line.take 1 = [' '] || line.take 1 = ['\t'] then
    match joined.getLast? with
    | none => joined
    | some last => joined.dropLast ++ [last ++ [','] ++ trimChars line]
  else joined ++ [line]

/-- The continuation-line pass of `parse_bsb_full`. -/
def joinContinuationLines (lines : List (List Char)) : List (List Char) :=
  lines.foldl joinContinuationStep []

/-- Rust `char::is_ascii_digit`. -/
def isAsciiDigit (c : Char) : Bool :=
  '0' ≤ c && c ≤ '9'

/-- Rust `str::to_uppercase` on ASCII text. -/
def upperChars (l : List Char) : List Char :=
  l.map Char.toUpper

/-- The accumulator loop of `splitSlash`: `cur` is the current (reversed)
segment. -/
def splitSlashGo : List Char → List Char → List (List Char)
  | [], cur => [cur.reverse]
  | c :: t, cur =>
    if c = '/' then cur.reverse :: splitSlashGo t [] else splitSlashGo t (c :: cur)

/-- Rust `str::split('/')`. -/
def splitSlash (l : List Char) : List (List Char) :=
  splitSlashGo l []

/-- The running state of the metadata loop of `parse_bsb_full`. -/
structure BsbAcc where
  edition_date : Option (List Char)
  source_edition : Option (List Char)
  results : List BsbChartMetadata
deriving DecidableEq, Repr

/-- One line of the metadata loop of `parse_bsb_full` (`commands.rs` lines
1675–1730): NTM (`ND=MM/DD/YYYY` → `YYYY-MM-DD`), CED (`SE=YYYYMMDD` →
`YYYY-MM-DD`), and `K<digits>/` chart entries with `NA=`/`TY=`/`FN=` fields;
the chart id is the filename minus a `.KAP`/`.kap` extension, uppercased. -/
def bsbLineStep (st : BsbAcc) (rawLine : List Char) : BsbAcc :=
  let line := trimChars rawLine
  let st :=
    if "NTM/".data.isPrefixOf line then
      match extract_field line "ND=".data with
      | some nd =>
        let parts := splitSlash nd
        if parts.length = 3 then
          { st with edition_date := some (parts.getD 2 [] ++ ['-']
              ++ parts.getD 0 [] ++ ['-'] ++ parts.getD 1 []) }
        else st
      | none => st
    else st
  let st :=
    if "CED/".data.isPrefixOf line then
      match extract_field line "SE=".data with
      | some se =>
        if se.length = 8 then
          { st with source_edition := some (se.take 4 ++ ['-']
              ++ (se.drop 4).take 2 ++ ['-'] ++ se.drop 6) }
        else st
      | none => st
    else st
  if line.take 1 = ['K'] ∧ 3 < line.length then
    match findSub line ['/'] with
    | none => st
    | some slash_pos =>
      let pre := line.take slash_pos
      if 2 ≤ pre.length ∧ (pre.drop 1).all isAsciiDigit then
        let rest := line.drop (slash_pos + 1)
        let title := extract_field rest "NA=".data
        let chart_type := extract_field rest "TY=".data
        let filename := extract_field rest "FN=".data
        match title, filename with
        | some title, some filename =>
          let chart_id :=
            upperChars (trimEndMatches (trimEndMatches filename ".KAP".data) ".kap".data)
          { st with results := st.results ++
              [{ chart_id := chart_id
                 title := title
                 chart_type := chart_type
                 edition_date := st.edition_date
                 source_edition := st.source_edition }] }
        | _, _ => st
      else st
  else st

/-- `parse_bsb_full` (`commands.rs` lines 1645–1733) on the decoded line list
of a catalog file: join continuation lines, then run the metadata loop. -/
def parse_bsb_full (lines : List (List Char)) : List BsbChartMetadata :=
  (((joinContinuationLines lines).foldl bsbLineStep
    { edition_date := none, source_edition := none, results := [] })).results

/-! ## Concrete fixtures used by the theorems -/

/-- A sample cell transform standing in for `CellTransform::to_geo`:
`lat` from `y`, `lon` from `x` (the transform is a parameter of the embedded
parser; any function of the raw point works for the concrete runs below). -/
def trSample (p : Cm93Point) : GeoPoint := ⟨(p.y : ℚ), (p.x : ℚ)⟩

/-- A 144-byte decoded cell image: prolog `word0 = 138`,
`vector_table_len = 0`, `feature_table_len = 6`; 128 header bytes; then one
feature record `object_type = 42`, `geom_prim = 1` (2D point),
`obj_desc_bytes = 2`, payload the point index `0`. -/
def d2data : List Nat :=
  [138, 0, 0, 0, 0, 0, 6, 0, 0, 0] ++ List.replicate 128 0 ++ [42, 1, 2, 0, 0, 0]

/-- A 168-byte decoded cell image with two edges —
`[(0,0), (1,1)]` and `[(5,5), (1,1)]` — and one line feature
(`geom_prim = 2`, `obj_desc_bytes = 10`) made of the two edge references
`0` and `1`, neither reversed. -/
def d4data : List Nat :=
  [138, 0, 20, 0, 0, 0, 10, 0, 0, 0] ++ List.replicate 128 0 ++
  [2, 0, 0, 0, 0, 0, 1, 0, 1, 0] ++ [2, 0, 5, 0, 5, 0, 1, 0, 1, 0] ++
  [10, 2, 10, 0, 2, 0, 0, 0, 1, 0]

/-- A 144-byte decoded cell image whose header announces two features but
whose feature section holds one complete line feature (`object_type = 5`,
`geom_prim = 2`, `obj_desc_bytes = 4`) followed by two leftover bytes: the
second feature is truncated. -/
def d5data : List Nat :=
  [138, 0, 0, 0, 0, 0, 6, 0, 0, 0] ++ List.replicate 128 0 ++ [5, 2, 4, 0, 0, 0]

/-- A 152-byte decoded cell image with one single-point edge and one line
feature whose only edge reference is index `5` — out of range for the
one-entry edge table. -/
def d10data : List Nat :=
  [138, 0, 6, 0, 0, 0, 8, 0, 0, 0] ++ List.replicate 128 0 ++
  [1, 0, 7, 0, 9, 0] ++ [3, 2, 8, 0, 1, 0, 5, 0]

/-- A two-edge table whose edges meet exactly at the junction vertex
`(1, 1)` and carry no repeated vertices, for the C4 witness. -/
def edgesW : List (List Cm93Point) := [[⟨0, 0⟩, ⟨1, 1⟩], [⟨1, 1⟩, ⟨2, 0⟩]]

/-! ## C1 — cipher round trip -/

/-- **C1.** The claim `∀ b, decode(encode(b)) = b ∧ encode(decode(b)) = b`
fails on the code: `TABLE_0` is not a permutation — the byte `0x0B` occurs at
both index 159 and index 174 while `0xEB` never occurs — so the decode table
built by `init_tables` is not an inverse of the encode table.  Concretely
`encode(159) = 0x03` but `decode(0x03) = 174` (the later write wins), and
`0xE3`, which is outside the encode range, decodes to the initial `0` with
`encode(0) = 0xC5`.  This contradicts the module's own tests
(`test_encode_decode_roundtrip`, `test_decode_encode_roundtrip`) and its doc
comment ("the decode table is the inverse mapping"), so the table entry, not
the claim, is the bug. -/
theorem C1_cipher_roundtrip_fails_at_159 :
    TABLE_0.getD 159 0 = 0x0B ∧ TABLE_0.getD 174 0 = 0x0B ∧
    encode_byte 159 = 0x03 ∧ decode_byte 0x03 = 174 ∧
    decode_byte (encode_byte 159) ≠ 159 ∧
    encode_byte (decode_byte 0xE3) ≠ 0xE3 := by
  decide

/-! ## C3 — the feature size correction -/

/-- **C3, counterexample.** The claim says `actual_data_bytes =
obj_desc_bytes − 4` *whenever* the low nibble of `geom_prim` is 2 or 4 or bit
7 is set; the code additionally requires `obj_desc_bytes >= 4`.  At
`geom_prim = 2`, `obj_desc_bytes = 3` the flag condition holds but the code
yields `3`, not `3 − 4`. -/
theorem C3_size_correction_counterexample :
    2 &&& 0x0F = 2 ∧ actualDataBytes 2 3 = 3 ∧
    (actualDataBytes 2 3 : ℤ) ≠ (3 : ℤ) - 4 := by
  decide

/-- **C3, amended.** `actual_data_bytes = obj_desc_bytes − 4` when the low
nibble of `geom_prim` is 2 or 4 or bit 7 is set **and** `obj_desc_bytes ≥ 4`;
otherwise — flag condition false, or `obj_desc_bytes < 4` —
`actual_data_bytes = obj_desc_bytes`. -/
theorem C3_size_correction_amended (geom_prim obj_desc_bytes : Nat) :
    ((geom_prim &&& 0x0F = 2 ∨ geom_prim &&& 0x0F = 4 ∨ geom_prim &&& 0x80 ≠ 0) →
        4 ≤ obj_desc_bytes →
        actualDataBytes geom_prim obj_desc_bytes = obj_desc_bytes - 4) ∧
    ((geom_prim &&& 0x0F = 2 ∨ geom_prim &&& 0x0F = 4 ∨ geom_prim &&& 0x80 ≠ 0) →
        obj_desc_bytes < 4 →
        actualDataBytes geom_prim obj_desc_bytes = obj_desc_bytes) ∧
    (¬(geom_prim &&& 0x0F = 2 ∨ geom_prim &&& 0x0F = 4 ∨ geom_prim &&& 0x80 ≠ 0) →
        actualDataBytes geom_prim obj_desc_bytes = obj_desc_bytes) := by
  simp only [actualDataBytes]
  refine ⟨fun hflag h4 => ?_, fun hflag h4 => ?_, fun hflag => ?_⟩ <;> split
  · rfl
  · next hc => exact absurd ⟨hflag, h4⟩ hc
  · next hc => omega
  · rfl
  · next hc => exact absurd hc.1 hflag
  · rfl

/-- Witness for C3: a line feature (`geom_prim = 2`) with
`obj_desc_bytes = 10` gets the −4 correction. -/
theorem C3_size_correction_witness :
    actualDataBytes 2 10 = 10 - 4 :=
  (C3_size_correction_amended 2 10).1 (Or.inl (by decide)) (by decide)

/-! ## C7 — MBTiles row convention -/

/-- **C7.** Writing a tile at XYZ `(z, x, y)` stores it at TMS row
`2^z − 1 − y`, and reading back at the same XYZ key returns the identical
bytes.  Modelled for `z < 32` and `y < 2^z` (the domain on which the `u32`
shift and subtraction in the source are defined). -/
theorem C7_mbtiles_row_roundtrip (t : TilesTable) (z x y : Nat)
    (d : List Nat) (_hz : z < 32) (_hy : y < 2 ^ z) :
    insert_tile t z x y d (z, x, 2 ^ z - 1 - y) = some d ∧
    get_tile (insert_tile t z x y d) z x y = some d := by
  have h : (1 <<< z) = 2 ^ z := by simp [Nat.shiftLeft_eq]
  exact ⟨by simp [insert_tile, h], by simp [get_tile, insert_tile, h]⟩

/-- Witness for C7 at `z = 3`, `x = 1`, `y = 2` on an empty table: the tile
lands in row `5 = 2^3 − 1 − 2` and reads back identically. -/
theorem C7_mbtiles_row_roundtrip_witness :
    insert_tile (fun _ => none) 3 1 2 [7, 9] (3, 1, 5) = some [7, 9] ∧
    get_tile (insert_tile (fun _ => none) 3 1 2 [7, 9]) 3 1 2 = some [7, 9] :=
  C7_mbtiles_row_roundtrip (fun _ => none) 3 1 2 [7, 9] (by decide) (by decide)

/-! ## C9 — cell cache size bound -/

/-- **C9, counterexample.** With `set_cache_size(0)` followed by one cache
miss, the cache holds one entry while `max_cache_size = 0`: the eviction step
`keys().next()` finds nothing on the empty cache, and the entry is inserted
anyway, so "at most `max_cache_size` entries" fails for capacity 0. -/
theorem C9_cache_bound_counterexample :
    (runReaderOps initReaderState [ReaderOp.setSize 0, ReaderOp.get (0, 0) true]).max_cache_size = 0 ∧
    (runReaderOps initReaderState [ReaderOp.setSize 0, ReaderOp.get (0, 0) true]).cache.length = 1 := by
  decide

/-- `getCellStep` keeps `max_cache_size` unchanged. -/
theorem getCellStep_max (s : ReaderCacheState) (k : CacheKey) (b : Bool) :
    (getCellStep s k b).max_cache_size = s.max_cache_size := by
  by_cases hmem : k ∈ s.cache
  · simp [getCellStep, hmem]
  · by_cases hful : s.max_cache_size ≤ s.cache.length <;> cases b <;>
      simp [getCellStep, hmem, hful]

/-- `getCellStep` preserves the cache bound once the capacity is positive. -/
theorem getCellStep_length (s : ReaderCacheState) (k : CacheKey) (b : Bool)
    (h1 : s.cache.length ≤ s.max_cache_size) (h2 : 1 ≤ s.max_cache_size) :
    (getCellStep s k b).cache.length ≤ s.max_cache_size := by
  have htail : s.cache.tail.length = s.cache.length - 1 := List.length_tail _
  by_cases hmem : k ∈ s.cache
  · simpa [getCellStep, hmem] using h1
  · by_cases hful : s.max_cache_size ≤ s.cache.length <;> cases b <;>
      simp [getCellStep, hmem, hful] <;> omega

/-- The cache invariant `length ≤ max ∧ 1 ≤ max` is preserved by any
operation sequence whose resizes all ask for at least one slot. -/
theorem runReaderOps_invariant (ops : List ReaderOp) :
    ∀ s : ReaderCacheState,
      s.cache.length ≤ s.max_cache_size → 1 ≤ s.max_cache_size →
      (∀ op ∈ ops, op.sizeOk) →
      (runReaderOps s ops).cache.length ≤ (runReaderOps s ops).max_cache_size ∧
      1 ≤ (runReaderOps s ops).max_cache_size := by
  induction ops with
  | nil => exact fun s h1 h2 _ => ⟨h1, h2⟩
  | cons op rest ih =>
    intro s h1 h2 hops
    have hop : op.sizeOk := hops op (List.mem_cons_self _ _)
    have hrest : ∀ o ∈ rest, o.sizeOk := fun o ho => hops o (List.mem_cons_of_mem _ ho)
    cases op with
    | get k load_ok =>
      have hstep : runReaderOps s (ReaderOp.get k load_ok :: rest)
          = runReaderOps (getCellStep s k load_ok) rest := rfl
      rw [hstep]
      exact ih (getCellStep s k load_ok)
        (by rw [getCellStep_max]; exact getCellStep_length s k load_ok h1 h2)
        (by rw [getCellStep_max]; exact h2) hrest
    | setSize n =>
      have hstep : runReaderOps s (ReaderOp.setSize n :: rest)
          = runReaderOps (setCacheSizeStep s n) rest := rfl
      rw [hstep]
      refine ih (setCacheSizeStep s n) ?_ hop hrest
      simp only [setCacheSizeStep, List.length_drop]
      omega

/-- **C9, amended.** Provided every `set_cache_size` call asks for at least
one slot (the default capacity 500 does), after any sequence of `get_cell`
and `set_cache_size` operations the cell cache holds at most
`max_cache_size` entries; when an insertion would exceed a positive capacity
one existing entry is evicted first.  (With capacity 0 the bound degrades to
one entry, as the counterexample shows.) -/
theorem C9_cache_bound_amended (ops : List ReaderOp)
    (h : ∀ op ∈ ops, op.sizeOk) :
    (runReaderOps initReaderState ops).cache.length ≤
      (runReaderOps initReaderState ops).max_cache_size :=
  (runReaderOps_invariant ops initReaderState (by decide) (by decide) h).1

/-- Witness for C9: a resize to 2 then three distinct-cell loads keep the
cache within its capacity. -/
theorem C9_cache_bound_witness :
    (runReaderOps initReaderState
        [ReaderOp.setSize 2, ReaderOp.get (0, 1) true, ReaderOp.get (0, 2) true,
         ReaderOp.get (0, 3) true]).cache.length ≤
      (runReaderOps initReaderState
        [ReaderOp.setSize 2, ReaderOp.get (0, 1) true, ReaderOp.get (0, 2) true,
         ReaderOp.get (0, 3) true]).max_cache_size :=
  C9_cache_bound_amended _ (by decide)

/-! ## C8 — BSB continuation lines -/

/-- **C8.** Any catalog line starting with a space or tab is appended to the
previous joined line, separated by a comma, before field extraction; and the
two-line entry `K01/NA=Alpha Bay` / `    NU=X5301,TY=Base,FN=X5301.KAP`
parses to chart id `X5301`, title `Alpha Bay`, type `Base`. -/
theorem C8_bsb_continuation (init : List (List Char)) (last line : List Char)
    (hws : (line.take 1 = [' '] || line.take 1 = ['\t']) = true) :
    joinContinuationStep (init ++ [last]) line
      = init ++ [last ++ [','] ++ trimChars line] ∧
    parse_bsb_full ["K01/NA=Alpha Bay".data, "    NU=X5301,TY=Base,FN=X5301.KAP".data]
      = [{ chart_id := "X5301".data, title := "Alpha Bay".data,
           chart_type := some "Base".data, edition_date := none,
           source_edition := none }] := by
  constructor
  · unfold joinContinuationStep
    rw [if_pos hws, List.getLast?_concat, List.dropLast_concat]
  · decide

/-- Witness for C8: the indented second line of the concrete entry is glued
onto the first with a comma. -/
theorem C8_bsb_continuation_witness :
    joinContinuationStep ["K01/NA=Alpha Bay".data] "  NU=X5301".data
      = ["K01/NA=Alpha Bay,NU=X5301".data] ∧
    parse_bsb_full ["K01/NA=Alpha Bay".data, "    NU=X5301,TY=Base,FN=X5301.KAP".data]
      = [{ chart_id := "X5301".data, title := "Alpha Bay".data,
           chart_type := some "Base".data, edition_date := none,
           source_edition := none }] := by
  have h := C8_bsb_continuation [] "K01/NA=Alpha Bay".data "  NU=X5301".data (by decide)
  refine ⟨?_, h.2⟩
  have h1 := h.1
  simp only [List.nil_append] at h1
  rw [h1]
  decide

/-! ## Helper lemmas about the feature loop -/

/-- Mapping preserves `isSome`. -/
theorem isSome_map_of_isSome {α β : Type} (f : α → β) (o : Option α)
    (h : o.isSome = true) : (o.map f).isSome = true := by
  cases o
  · simp at h
  · rfl

/-- The feature loop never hits an unguarded byte access: its two direct
indexings are protected by the `offset + 4 > data.len()` guard, so the result
is always `some`. -/
theorem parseFeatureLoop_isSome (data : List Nat) (edges : List (List Cm93Point))
    (tr : Cm93Point → GeoPoint) (featEnd : Nat) :
    ∀ (n offset featIdx : Nat),
      (parseFeatureLoop data edges tr featEnd n offset featIdx).isSome = true := by
  intro n
  induction n with
  | zero => intro offset featIdx; rfl
  | succ n ih =>
    intro offset featIdx
    rw [parseFeatureLoop]
    split
    · rfl
    · next hguard =>
      have h4 : offset + 4 ≤ data.length := by
        rcases not_or.mp hguard with ⟨ha, _⟩; omega
      rw [List.getElem?_eq_getElem (by omega : offset < data.length),
          List.getElem?_eq_getElem (by omega : offset + 1 < data.length)]
      dsimp only
      split
      · rfl
      · split
        · exact isSome_map_of_isSome _ _ (ih _ _)
        · exact ih _ _

/-- The feature loop pushes at most one feature per iteration, so the result
is bounded by the iteration budget. -/
theorem parseFeatureLoop_length_le (data : List Nat) (edges : List (List Cm93Point))
    (tr : Cm93Point → GeoPoint) (featEnd : Nat) :
    ∀ (n offset featIdx : Nat) (fs : List Cm93Feature),
      parseFeatureLoop data edges tr featEnd n offset featIdx = some fs →
      fs.length ≤ n := by
  intro n
  induction n with
  | zero =>
    intro o i fs h
    cases h
    simp
  | succ n ih =>
    intro o i fs h
    rw [parseFeatureLoop] at h
    split at h
    · cases h; simp
    · split at h
      · dsimp only at h
        split at h
        · cases h; simp
        · split at h
          · rcases Option.map_eq_some'.mp h with ⟨fs', hrec, rfl⟩
            have := ih _ _ _ hrec
            simp only [List.length_cons]
            omega
          · exact le_trans (ih _ _ _ h) (Nat.le_succ n)
      · exact absurd h (by simp)

/-- Every feature of kind `Point` (geometry codes 1 and 8) the loop produces
carries the placeholder geometry `point(0.0, 0.0)`: the 2D- and 3D-point
arrays are empty, so `geometry_points` stays empty on those paths. -/
theorem parseFeatureLoop_point_geometry (data : List Nat) (edges : List (List Cm93Point))
    (tr : Cm93Point → GeoPoint) (featEnd : Nat) :
    ∀ (n offset featIdx : Nat) (fs : List Cm93Feature) (f : Cm93Feature),
      parseFeatureLoop data edges tr featEnd n offset featIdx = some fs →
      f ∈ fs → f.geometry_type = GeometryType.Point →
      f.geometry = Cm93Geometry.point 0 0 := by
  intro n
  induction n with
  | zero =>
    intro o i fs f h hf _
    cases h
    simp at hf
  | succ n ih =>
    intro o i fs f h hf hgt
    rw [parseFeatureLoop] at h
    split at h
    · cases h; simp at hf
    · split at h
      · rename_i ot gp hot hgp
        dsimp only at h
        split at h
        · cases h; simp at hf
        · split at h
          · next hgood =>
            rcases Option.map_eq_some'.mp h with ⟨fs', hrec, rfl⟩
            rcases List.mem_cons.mp hf with rfl | hmem
            · by_cases hc2 : gp &&& 15 = 2
              · simp [hc2] at hgt
              · by_cases hc4 : gp &&& 15 = 4
                · simp [hc2, hc4] at hgt
                · simp [hc2, hc4, mkFeatureGeometry]
            · exact ih _ _ _ _ hrec hmem hgt
          · exact ih _ _ _ _ h hf hgt
      · exact absurd h (by simp)

/-- A feature carrying the placeholder point geometry passes every filter of
`feature_to_geojson` as long as its class is below 200: the single vertex
`(0, 0)` is a valid point geometry and the line/area filters do not apply. -/
theorem point_placeholder_geojson_isSome (f : Cm93Feature)
    (dict : Option Cm93Dictionary)
    (hgt : f.geometry_type = GeometryType.Point)
    (hg : f.geometry = Cm93Geometry.point 0 0)
    (hcls : f.object_class < 200) :
    (feature_to_geojson f dict).isSome = true := by
  unfold feature_to_geojson
  rw [hg, hgt]
  simp [Cm93Geometry.point, Cm93Geometry.is_valid, is_metadata_object,
    Nat.not_le.mpr hcls]

/-! ## C2 — point and sounding features -/

/-- **C2, counterexample.** A cell with one geometry-kind-1 feature and empty
point arrays: the parsed feature's geometry is *not* empty — it is the
placeholder `point(0.0, 0.0)` with one vertex — and it is *not* filtered from
GeoJSON output (`feature_to_geojson` returns `Some`). -/
theorem C2_point_features_counterexample :
    parse_features d2data ⟨138, 0, 1⟩ trSample
      = some [⟨42, 0, .Point, Cm93Geometry.point 0 0, []⟩] ∧
    (Cm93Geometry.point 0 0).points.length = 1 ∧
    (feature_to_geojson ⟨42, 0, .Point, Cm93Geometry.point 0 0, []⟩ none).isSome = true :=
  ⟨by decide, by decide, by decide⟩

/-- **C2, amended.** For every parsed cell, every point (geom kind 1) and
sounding (geom kind 8) feature is left with the placeholder single-vertex
geometry `point(0.0, 0.0)` (the 2D/3D point arrays are never filled), and
such features are **not** filtered out of GeoJSON output downstream: whenever
the object class is below 200, `feature_to_geojson` emits them as a `Point`
at `[0, 0]`. -/
theorem C2_point_features_amended
    (data : List Nat) (header : CellHeader) (tr : Cm93Point → GeoPoint)
    (dict : Option Cm93Dictionary) (fs : List Cm93Feature) (f : Cm93Feature)
    (hparse : parse_features data header tr = some fs) (hmem : f ∈ fs)
    (hgt : f.geometry_type = GeometryType.Point) :
    f.geometry = Cm93Geometry.point 0 0 ∧
    (f.object_class < 200 → (feature_to_geojson f dict).isSome = true) := by
  have hg : f.geometry = Cm93Geometry.point 0 0 := by
    simp only [parse_features] at hparse
    exact parseFeatureLoop_point_geometry _ _ _ _ _ _ _ _ _ hparse hmem hgt
  exact ⟨hg, fun hcls => point_placeholder_geojson_isSome f dict hgt hg hcls⟩

/-- Witness for C2 at the concrete cell `d2data`. -/
theorem C2_point_features_amended_witness :
    (⟨42, 0, .Point, Cm93Geometry.point 0 0, []⟩ : Cm93Feature).geometry
        = Cm93Geometry.point 0 0 ∧
    ((⟨42, 0, .Point, Cm93Geometry.point 0 0, []⟩ : Cm93Feature).object_class < 200 →
      (feature_to_geojson ⟨42, 0, .Point, Cm93Geometry.point 0 0, []⟩ none).isSome = true) :=
  C2_point_features_amended d2data ⟨138, 0, 1⟩ trSample none
    [⟨42, 0, .Point, Cm93Geometry.point 0 0, []⟩]
    ⟨42, 0, .Point, Cm93Geometry.point 0 0, []⟩
    (by decide) (by decide) (by decide)

/-! ## C5 — feature count bound and truncation tolerance -/

/-- **C5.** After a successful parse the number of features is at most the
header's `feature_count`; and a truncated feature section does not fail the
parse — the concrete cell `d5data` announces two features, its second is cut
off, and the parse still returns `some` with exactly the one cleanly parsed
feature. -/
theorem C5_truncation_tolerance
    (data : List Nat) (header : CellHeader) (tr : Cm93Point → GeoPoint)
    (fs : List Cm93Feature)
    (hparse : parse_features data header tr = some fs) :
    fs.length ≤ header.feature_count ∧
    parse_features d5data ⟨138, 0, 2⟩ trSample
      = some [⟨5, 0, .Line, Cm93Geometry.line [], []⟩] := by
  refine ⟨?_, by decide⟩
  simp only [parse_features] at hparse
  exact parseFeatureLoop_length_le _ _ _ _ _ _ _ _ hparse

/-- Witness for C5 at the concrete truncated cell `d5data`. -/
theorem C5_truncation_tolerance_witness :
    ([(⟨5, 0, .Line, Cm93Geometry.line [], []⟩ : Cm93Feature)]).length
        ≤ (⟨138, 0, 2⟩ : CellHeader).feature_count ∧
    parse_features d5data ⟨138, 0, 2⟩ trSample
      = some [⟨5, 0, .Line, Cm93Geometry.line [], []⟩] :=
  C5_truncation_tolerance d5data ⟨138, 0, 2⟩ trSample _ (by decide)

/-! ## C10 — totality of the section parsers -/

/-- **C10.** For every decoded buffer (in particular any of at least 138
bytes) and every header, parsing the edge and feature sections is total: the
direct byte accesses are guarded, out-of-range reads surface as `Option`
defaults, and the result is always `some`.  The concrete cell `d10data` shows
an out-of-range edge index (5, against a one-entry edge table) being skipped
rather than dereferenced: the feature comes back with no vertices. -/
theorem C10_parse_never_panics
    (data : List Nat) (header : CellHeader) (tr : Cm93Point → GeoPoint)
    (_hlen : 138 ≤ data.length) :
    (parse_features data header tr).isSome = true ∧
    parse_features d10data ⟨138, 1, 1⟩ trSample
      = some [⟨3, 0, .Line, Cm93Geometry.line [], []⟩] := by
  refine ⟨?_, by decide⟩
  simp only [parse_features]
  exact parseFeatureLoop_isSome _ _ _ _ _ _ _

/-- Witness for C10 at the concrete cell `d2data` (144 bytes). -/
theorem C10_parse_never_panics_witness :
    (parse_features d2data ⟨138, 0, 1⟩ trSample).isSome = true ∧
    parse_features d10data ⟨138, 1, 1⟩ trSample
      = some [⟨3, 0, .Line, Cm93Geometry.line [], []⟩] :=
  C10_parse_never_panics d2data ⟨138, 0, 1⟩ trSample (by decide)

/-! ## C6 — GeoJSON filter rules -/

/-- A two-vertex line whose endpoints share a latitude or a longitude is
classified as a cell-boundary connector (the tolerance comparison holds
exactly at difference zero). -/
theorem connector_of_axis_aligned_pair (p q : GeoPoint)
    (h : p.lat = q.lat ∨ p.lon = q.lon) :
    is_cell_boundary_connector [p, q] = true := by
  unfold is_cell_boundary_connector
  rcases h with h1 | h1 <;> simp [h1]

/-- **C6.** No feature with `object_class ≥ 200`, and no two-vertex perfectly
horizontal or vertical line, ever reaches GeoJSON output: for every such
feature `feature_to_geojson` yields nothing. -/
theorem C6_geojson_filters (f : Cm93Feature) (dict : Option Cm93Dictionary)
    (h : 200 ≤ f.object_class ∨
      (f.geometry_type = GeometryType.Line ∧
        ∃ p q : GeoPoint, f.geometry.points = [p, q] ∧
          (p.lat = q.lat ∨ p.lon = q.lon))) :
    feature_to_geojson f dict = none := by
  unfold feature_to_geojson
  rcases h with hcls | ⟨hline, p, q, hpts, hax⟩
  · by_cases hv : f.geometry.is_valid
    · simp [hv, is_metadata_object, hcls]
    · simp [hv]
  · have hconn := connector_of_axis_aligned_pair p q hax
    by_cases hv : f.geometry.is_valid
    · by_cases hm : is_metadata_object f.object_class
      · simp [hv, hm]
      · simp [hv, hm, hline, hpts, hconn]
    · simp [hv]

/-- Witness for C6: a class-250 feature and a perfectly horizontal two-vertex
coastline segment are both dropped. -/
theorem C6_geojson_filters_witness :
    feature_to_geojson ⟨250, 0, .Point, Cm93Geometry.point 1 2, []⟩ none = none ∧
    feature_to_geojson
      ⟨35, 0, .Line, Cm93Geometry.line [⟨3, 5⟩, ⟨3, 9⟩], []⟩ none = none :=
  ⟨C6_geojson_filters _ none (Or.inl (by decide)),
   C6_geojson_filters _ none (Or.inr ⟨rfl, ⟨3, 5⟩, ⟨3, 9⟩, rfl, Or.inl rfl⟩)⟩

/-! ## C4 — junction deduplication -/

/-- **C4, counterexample.** A line feature assembled from the two edge
references `0` and `1` of `d4data`: the second edge's vertices after the
junction skip still repeat the first edge's final vertex, so the output
`[(0,0), (1,1), (1,1)]` has two equal consecutive vertices. -/
theorem C4_junction_dedup_counterexample :
    parse_features d4data ⟨138, 2, 1⟩ trSample
      = some [⟨10, 0, .Line,
          Cm93Geometry.line [⟨0, 0⟩, ⟨1, 1⟩, ⟨1, 1⟩], []⟩] ∧
    readRefs d4data 168 2 164 = [(0, false), (1, false)] ∧
    ¬ List.Chain' (fun a b : GeoPoint => a ≠ b) [⟨0, 0⟩, ⟨1, 1⟩, ⟨1, 1⟩] :=
  ⟨by decide, by decide,
   fun hch => (List.chain'_cons.mp (List.chain'_cons.mp hch).2).1 rfl⟩

/-- Appending one oriented edge to a duplicate-free accumulator that it
continues exactly (its head is the accumulator's last vertex) keeps the
result duplicate-free, and the result ends with the edge's last vertex. -/
theorem appendEdge_chain (acc g : List GeoPoint)
    (hacc : List.Chain' (· ≠ ·) acc) (hg : List.Chain' (· ≠ ·) g) (hgne : g ≠ [])
    (hjoin : acc = [] ∨ acc.getLast? = g.head?) :
    List.Chain' (· ≠ ·) (appendEdge acc g) ∧
    (appendEdge acc g).getLast? = g.getLast? ∧ appendEdge acc g ≠ [] := by
  rcases hjoin with rfl | hjoin
  · have he : appendEdge [] g = g := by simp [appendEdge]
    rw [he]
    exact ⟨hg, rfl, hgne⟩
  · rcases acc with _ | ⟨a, acc'⟩
    · rcases g with _ | ⟨gh, gt⟩
      · exact absurd rfl hgne
      · simp at hjoin
    · rcases g with _ | ⟨gh, gt⟩
      · exact absurd rfl hgne
      · have he : appendEdge (a :: acc') (gh :: gt) = (a :: acc') ++ gt := by
          simp [appendEdge]
        have hgh : (a :: acc').getLast? = some gh := by simpa using hjoin
        rw [he]
        refine ⟨List.chain'_append.mpr ⟨hacc, hg.tail, ?_⟩, ?_, by simp⟩
        · intro x hx y hy
          rw [hgh, Option.mem_some_iff] at hx
          subst hx
          exact hg.rel_head? hy
        · cases gt with
          | nil => simpa using hgh
          | cons y t =>
            rw [List.getLast?_append_of_ne_nil _ (by simp), List.getLast?_cons_cons]

/-- Folding the reference-assembly step over a chained, duplicate-free,
in-range reference list keeps the accumulated geometry duplicate-free, and
tracks its final vertex. -/
theorem assemble_foldl_chain (edges : List (List Cm93Point)) (tr : Cm93Point → GeoPoint) :
    ∀ (refs : List (Nat × Bool)) (acc : List GeoPoint),
      List.Chain' (· ≠ ·) acc →
      (∀ r ∈ refs, orientedEdge edges tr r ≠ [] ∧
        List.Chain' (· ≠ ·) (orientedEdge edges tr r)) →
      List.Chain' (fun r s => (orientedEdge edges tr r).getLast?
        = (orientedEdge edges tr s).head?) refs →
      (∀ r ∈ refs.head?, acc = [] ∨ acc.getLast? = (orientedEdge edges tr r).head?) →
      (∀ r ∈ refs, r.1 < edges.length) →
      List.Chain' (· ≠ ·) (refs.foldl (assembleStep edges tr) acc) ∧
      ((refs.foldl (assembleStep edges tr) acc).getLast?
        = match refs.getLast? with
          | none => acc.getLast?
          | some r => (orientedEdge edges tr r).getLast?) := by
  intro refs
  induction refs with
  | nil => exact fun acc h1 _ _ _ _ => ⟨h1, rfl⟩
  | cons r rest ih =>
    intro acc hacc hedges hchain hhead hrange
    have hr := hedges r (List.mem_cons_self _ _)
    have hstep : assembleStep edges tr acc r = appendEdge acc (orientedEdge edges tr r) := by
      simp [assembleStep, hrange r (List.mem_cons_self _ _)]
    have hj : acc = [] ∨ acc.getLast? = (orientedEdge edges tr r).head? :=
      hhead r (by simp)
    obtain ⟨hch1, hlast1, hne1⟩ := appendEdge_chain acc _ hacc hr.2 hr.1 hj
    rw [List.foldl_cons, hstep]
    have ihres := ih (appendEdge acc (orientedEdge edges tr r)) hch1
      (fun s hs => hedges s (List.mem_cons_of_mem _ hs))
      hchain.tail
      (fun s hs => Or.inr (by rw [hlast1]; exact hchain.rel_head? hs))
      (fun s hs => hrange s (List.mem_cons_of_mem _ hs))
    refine ⟨ihres.1, ?_⟩
    rw [ihres.2]
    cases rest with
    | nil => simpa using hlast1
    | cons s t =>
      rw [List.getLast?_cons_cons]
      cases hw : (s :: t).getLast? with
      | none => simp at hw
      | some w => simp [hw]

/-- The byte-level reference loop computes exactly the fold of the assembly
step over the decoded reference stream. -/
theorem parseRefs_eq_foldl (data : List Nat) (edges : List (List Cm93Point))
    (tr : Cm93Point → GeoPoint) (fde : Nat) :
    ∀ (n offset : Nat) (acc : List GeoPoint),
      (parseRefs data edges tr fde n offset acc).2
        = (readRefs data fde n offset).foldl (assembleStep edges tr) acc := by
  intro n
  induction n with
  | zero => intro o acc; rfl
  | succ n ih =>
    intro o acc
    rw [parseRefs, readRefs]
    split
    · rfl
    · dsimp only
      rw [List.foldl_cons, ih]
      congr 1
      rcases he : edges[(readU16D data o).1 &&& 0x1FFF]? with _ | e
      · have hge : ¬ ((readU16D data o).1 &&& 0x1FFF) < edges.length := by
          have := List.getElem?_eq_none_iff.mp he
          omega
        simp [he, assembleStep, hge]
      · have hlt : ((readU16D data o).1 &&& 0x1FFF) < edges.length :=
          (List.getElem?_eq_some_iff.mp he).1
        have hgd : edges.getD ((readU16D data o).1 &&& 0x1FFF) [] = e := by
          simp [List.getD, he]
        simp [he, assembleStep, hlt, orientedEdge, hgd, decide_eq_true_eq]

/-- **C4, amended.** For a line or area feature assembled from edge
references, no two consecutive output vertices are equal **provided** every
referenced edge index is in range and the oriented edges are duplicate-free,
non-empty and chain exactly — each edge's (post-reversal) first vertex equals
the previous edge's final vertex.  (Without those provisos the
counterexample's repeated junction vertex appears in the output.) -/
theorem C4_junction_dedup_amended (data : List Nat) (edges : List (List Cm93Point))
    (tr : Cm93Point → GeoPoint) (fde n offset : Nat) (refs : List (Nat × Bool))
    (hrefs : refs = readRefs data fde n offset)
    (hrange : ∀ r ∈ refs, r.1 < edges.length)
    (hedges : ∀ r ∈ refs, orientedEdge edges tr r ≠ [] ∧
      List.Chain' (· ≠ ·) (orientedEdge edges tr r))
    (hchain : List.Chain' (fun r s => (orientedEdge edges tr r).getLast?
      = (orientedEdge edges tr s).head?) refs) :
    List.Chain' (· ≠ ·) (parseRefs data edges tr fde n offset []).2 := by
  rw [parseRefs_eq_foldl, ← hrefs]
  exact (assemble_foldl_chain edges tr refs [] List.chain'_nil hedges hchain
    (fun r _ => Or.inl rfl) hrange).1

/-- Witness for C4: two well-chained edges (`edgesW`) assembled from the
reference bytes `[0, 0, 1, 0]` produce a duplicate-free vertex list. -/
theorem C4_junction_dedup_amended_witness :
    List.Chain' (· ≠ ·) (parseRefs [0, 0, 1, 0] edgesW trSample 4 2 0 []).2 := by
  refine C4_junction_dedup_amended [0, 0, 1, 0] edgesW trSample 4 2 0
    [(0, false), (1, false)] (by decide) (by decide) ?_ ?_
  · intro r hr
    rcases List.mem_cons.mp hr with rfl | hr
    · exact ⟨by decide, List.chain'_pair.mpr (by decide)⟩
    · rcases List.mem_cons.mp hr with rfl | hr
      · exact ⟨by decide, List.chain'_pair.mpr (by decide)⟩
      · simp at hr
  · exact List.chain'_pair.mpr (by decide)
